import Mathlib

/-!
Shallow embedding of the in-memory bank ledger from
internal/bank/bank.go (package bank) together with the storage data
model from internal/storage/model.go.

Modelling conventions:
* Go int64 values are modelled as Int; the balance updates
  (Balance += amt, Balance -= amt) apply a twos-complement wrap to the
  int64 range, faithful to Go machine arithmetic.
* The Go map[string]*Account is modelled as an insertion-ordered
  association list with map semantics: assignment replaces the first
  binding of the key or appends a new binding.
* time.Now() is modelled by an explicit timestamp argument (a Nat
  tick) passed to every operation that reads the clock.  Transfer
  reads the clock once and stamps both history entries with it, as in
  the source.
* Since every operation runs under the single mutex, each operation is
  one atomic state transition Bank -> Bank (plus a returned value).
-/

/-- Twos-complement wrap of an unbounded integer to the int64 range,
modelling Go int64 overflow on addition and subtraction. -/
def wrap64 (x : Int) : Int := (x + 2 ^ 63) % 2 ^ 64 - 2 ^ 63

/-- A value representable as a Go int64. -/
def isInt64 (x : Int) : Prop := -(2 ^ 63) ≤ x ∧ x < 2 ^ 63

instance (x : Int) : Decidable (isInt64 x) := by
  unfold isInt64; infer_instance

/-- Transaction record: struct Log of internal/bank/account.go.
The Time field of type time.Time is abstracted to a Nat tick. -/
structure Log where
  Time : Nat
  Amount : Int
  Direction : String
  CounterID : String
  Note : String
deriving DecidableEq

/-- Bank account: struct Account of internal/bank/account.go. -/
structure Account where
  ID : String
  Name : String
  Balance : Int
  Logs : List Log
deriving DecidableEq

/-- Domain errors of internal/bank/errors.go. -/
inductive Err where
  | notFound
  | badAmount
  | insufficient
  | sameAccount
deriving DecidableEq

/-- Lookup in the association-list model of a Go map (first binding of
the key wins). -/
def lookupA {α : Type} : List (String × α) → String → Option α
  | [], _ => none
  | (k, v) :: rest, id => if k = id then some v else lookupA rest id

/-- Map assignment m[id] = v: replaces the first binding of id, or
appends a fresh binding when id is absent. -/
def updateA {α : Type} : List (String × α) → String → α → List (String × α)
  | [], id, v => [(id, v)]
  | (k, w) :: rest, id, v =>
    if k = id then (k, v) :: rest else (k, w) :: updateA rest id v

/-- Aggregate root: struct Bank of internal/bank/bank.go (the mutex is
implicit in the atomic-step modelling). -/
structure Bank where
  nextID : Int
  accts : List (String × Account)
deriving DecidableEq

/-- NewBank: empty bank. -/
def NewBank : Bank := { nextID := 0, accts := [] }

/-- newID: increments the int64 counter (atomic.AddInt64, which wraps
at the int64 boundary) and renders the incremented value in decimal
(fmt.Sprintf with verb d).  Returns the fresh id and the bank with the
bumped counter. -/
def Bank.newID (b : Bank) : String × Bank :=
  let id := wrap64 (b.nextID + 1)
  (toString id, { b with nextID := id })

/-- Create: rejects a negative initial balance, otherwise allocates a
fresh id and inserts a new account with empty history.  The Go code
returns the inserted *Account pointer; here we return the inserted
record as a value (see the pointer-level model below for the aliasing
behaviour of the returned pointer). -/
def Bank.Create (b : Bank) (name : String) (balance : Int) :
    Except Err Account × Bank :=
  if balance < 0 then (Except.error Err.badAmount, b)
  else
    let (id, b') := b.newID
    let a : Account := { ID := id, Name := name, Balance := balance, Logs := [] }
    (Except.ok a, { b' with accts := updateA b'.accts id a })

/-- Get: returns a copy of the account, or ErrNotFound. -/
def Bank.Get (b : Bank) (id : String) : Except Err Account :=
  match lookupA b.accts id with
  | none => Except.error Err.notFound
  | some a => Except.ok a

/-- Logs: a copy of the full ordered history of the account, or
ErrNotFound. -/
def Bank.Logs (b : Bank) (id : String) : Except Err (List Log) :=
  match lookupA b.accts id with
  | none => Except.error Err.notFound
  | some a => Except.ok a.Logs

/-- List: copies of all accounts, in map iteration order (modelled as
insertion order). -/
def Bank.List (b : Bank) : List Account := b.accts.map (fun p => p.2)

/-- Deposit: amount must be positive, account must exist; increments
the balance (int64 arithmetic) and appends a deposit history entry in
the same critical section. -/
def Bank.Deposit (b : Bank) (id : String) (amt : Int) (now : Nat) :
    Except Err Account × Bank :=
  if amt ≤ 0 then (Except.error Err.badAmount, b)
  else
    match lookupA b.accts id with
    | none => (Except.error Err.notFound, b)
    | some a =>
      let a' : Account :=
        { a with
          Balance := wrap64 (a.Balance + amt),
          Logs := a.Logs ++
            [{ Time := now, Amount := amt, Direction := "in",
               CounterID := "", Note := "deposit" }] }
      (Except.ok a', { b with accts := updateA b.accts id a' })

/-- Withdraw: amount must be positive, account must exist, balance
must cover the amount; decrements the balance and appends a withdraw
history entry. -/
def Bank.Withdraw (b : Bank) (id : String) (amt : Int) (now : Nat) :
    Except Err Account × Bank :=
  if amt ≤ 0 then (Except.error Err.badAmount, b)
  else
    match lookupA b.accts id with
    | none => (Except.error Err.notFound, b)
    | some a =>
      if a.Balance < amt then (Except.error Err.insufficient, b)
      else
        let a' : Account :=
          { a with
            Balance := wrap64 (a.Balance - amt),
            Logs := a.Logs ++
              [{ Time := now, Amount := amt, Direction := "out",
                 CounterID := "", Note := "withdraw" }] }
        (Except.ok a', { b with accts := updateA b.accts id a' })

/-- Transfer: validates the amount and distinct ids before the
critical section; inside it checks existence of both accounts and
sufficiency of the source balance, then debits the source, credits the
destination and appends one paired history entry to each side, both
stamped with the single clock reading now. -/
def Bank.Transfer (b : Bank) (fromID toID : String) (amt : Int) (now : Nat) :
    Option Err × Bank :=
  if amt ≤ 0 then (some Err.badAmount, b)
  else if fromID = toID then (some Err.sameAccount, b)
  else
    match lookupA b.accts fromID, lookupA b.accts toID with
    | some fa, some ta =>
      if fa.Balance < amt then (some Err.insufficient, b)
      else
        let fa' : Account :=
          { fa with
            Balance := wrap64 (fa.Balance - amt),
            Logs := fa.Logs ++
              [{ Time := now, Amount := amt, Direction := "out",
                 CounterID := toID, Note := "transfer" }] }
        let ta' : Account :=
          { ta with
            Balance := wrap64 (ta.Balance + amt),
            Logs := ta.Logs ++
              [{ Time := now, Amount := amt, Direction := "in",
                 CounterID := fromID, Note := "transfer" }] }
        (none, { b with accts := updateA (updateA b.accts fromID fa') toID ta' })
    | _, _ => (some Err.notFound, b)

/-- Snapshot metadata: struct Meta of internal/storage/model.go.  The
time.Time Timestamp field is abstracted to a Nat tick (zero value 0 is
used by Bank.Snapshot, which does not set it). -/
structure Meta where
  Storage : String
  Version : Int
  Timestamp : Nat
  Note : String
deriving DecidableEq

/-- Serialized account: struct PersistAccount of
internal/storage/model.go.  Its Logs field has Go type list of any,
each element holding a Log value; we model that list of boxed Log
values as a List Log. -/
structure PersistAccount where
  ID : String
  Name : String
  Balance : Int
  Logs : List Log
deriving DecidableEq

/-- Full bank snapshot: struct Snapshot of internal/storage/model.go. -/
structure Snapshot where
  Meta : Meta
  NextID : Int
  Accounts : List PersistAccount
deriving DecidableEq

/-- toAnySlice: boxes each element of a typed slice into a slice of
any (each box holds a copy of the element value). -/
def toAnySlice {α : Type} (xs : List α) : List α := xs.map (fun v => v)

/-- The Restore loop sends each boxed history element through
json.Marshal followed by json.Unmarshal into a Log.  On a boxed Log
value this round-trip reproduces the same record field by field, so it
is modelled as the identity on Log. -/
def jsonLogRoundTrip (l : Log) : Log := l

/-- Bank.Restore: discards the current state, sets the counter from
the snapshot and rebuilds the account map from the snapshot records
(history entries pass through the JSON round-trip). -/
def Bank.Restore (_b : Bank) (s : Snapshot) : Bank :=
  { nextID := s.NextID,
    accts := s.Accounts.foldl (fun m pa =>
      updateA m pa.ID
        { ID := pa.ID, Name := pa.Name, Balance := pa.Balance,
          Logs := pa.Logs.map jsonLogRoundTrip }) [] }

/-- Bank.Snapshot: exports metadata, the counter and one record per
account (with its full history) in map iteration order. -/
def Bank.Snapshot (b : Bank) : Snapshot :=
  { Meta :=
      { Storage := "json_snapshot",
        Version := 1,
        Timestamp := 0,
        Note := "Can be replaced by database backend in the future." },
    NextID := b.nextID,
    Accounts := b.accts.map (fun p =>
      { ID := p.2.ID, Name := p.2.Name, Balance := p.2.Balance,
        Logs := toAnySlice p.2.Logs }) }

/-- Balance of an account as observed through the map (0 when the
account is absent). -/
def Bank.balanceOf (b : Bank) (id : String) : Int :=
  match lookupA b.accts id with
  | none => 0
  | some a => a.Balance

/-- Sum of the balances of all accounts in the ledger. -/
def Bank.totalBal (b : Bank) : Int :=
  (b.accts.map (fun p => p.2.Balance)).sum

example :
    (NewBank.Create "A" 1000).1 =
      Except.ok { ID := "1", Name := "A", Balance := 1000, Logs := [] } := rfl

example :
    ((NewBank.Create "A" 1000).2.Deposit "1" 200 5).1 =
      Except.ok
        { ID := "1", Name := "A", Balance := 1200,
          Logs := [{ Time := 5, Amount := 200, Direction := "in",
                     CounterID := "", Note := "deposit" }] } := rfl

example :
    wrap64 (2 ^ 63 - 1 + 1) = -(2 ^ 63) := by decide

/-!
Traces of ledger calls.  Op covers the eight operations named by the
spec scenario without Restore; OpF additionally includes Restore.
Each clock-reading operation carries its time.Now() value.
-/

/-- One ledger call (without Restore). -/
inductive Op where
  | create (name : String) (balance : Int)
  | deposit (id : String) (amt : Int) (now : Nat)
  | withdraw (id : String) (amt : Int) (now : Nat)
  | transfer (fromID toID : String) (amt : Int) (now : Nat)
  | get (id : String)
  | listAll
  | logs (id : String)
  | snapshot
deriving DecidableEq

/-- State transition of one call.  Get, List, Logs and Snapshot only
read state under the mutex and leave the ledger unchanged. -/
def stepOp (b : Bank) : Op → Bank
  | Op.create name balance => (b.Create name balance).2
  | Op.deposit id amt now => (b.Deposit id amt now).2
  | Op.withdraw id amt now => (b.Withdraw id amt now).2
  | Op.transfer fromID toID amt now => (b.Transfer fromID toID amt now).2
  | Op.get _ => b
  | Op.listAll => b
  | Op.logs _ => b
  | Op.snapshot => b

/-- Run a list of calls in order. -/
def runOps (b : Bank) (ops : List Op) : Bank := ops.foldl stepOp b

/-- One ledger call, Restore included. -/
inductive OpF where
  | basic (op : Op)
  | restore (s : Snapshot)

/-- State transition including Restore. -/
def stepOpF (b : Bank) : OpF → Bank
  | OpF.basic op => stepOp b op
  | OpF.restore s => b.Restore s

/-- Run a list of calls (Restore included) in order. -/
def runOpsF (b : Bank) (ops : List OpF) : Bank := ops.foldl stepOpF b

/-- A call supplied with arguments a Go caller can produce (amounts
are int64 values) whose balance arithmetic stays inside the int64
range at state b, so that no wrap occurs. -/
def okAt (b : Bank) : Op → Prop
  | Op.create _ balance => balance < 2 ^ 63
  | Op.deposit id amt _ =>
    match lookupA b.accts id with
    | some a => a.Balance + amt < 2 ^ 63
    | none => True
  | Op.withdraw _ _ _ => True
  | Op.transfer _ toID amt _ =>
    match lookupA b.accts toID with
    | some a => a.Balance + amt < 2 ^ 63
    | none => True
  | _ => True

instance (b : Bank) (op : Op) : Decidable (okAt b op) := by
  unfold okAt
  cases op <;> simp only <;> try infer_instance
  all_goals
    cases lookupA b.accts _ <;> simp only <;> infer_instance

/-- Every call of the trace, executed in sequence, satisfies okAt at
the state where it runs. -/
def okRun : Bank → List Op → Prop
  | _, [] => True
  | b, op :: ops => okAt b op ∧ okRun (stepOp b op) ops

instance instDecidableOkRun : (b : Bank) → (ops : List Op) → Decidable (okRun b ops)
  | _, [] => by unfold okRun; infer_instance
  | b, op :: ops =>
    have := instDecidableOkRun (stepOp b op) ops
    by unfold okRun; infer_instance

/-- All balances of the ledger are non-negative int64 values. -/
def Bank.Good (b : Bank) : Prop :=
  ∀ p ∈ b.accts, 0 ≤ p.2.Balance ∧ p.2.Balance < 2 ^ 63

/-- Every key of the account map equals the ID of its record. -/
def Bank.KeyInv (b : Bank) : Prop :=
  ∀ p ∈ b.accts, p.1 = p.2.ID

/-- The keys of the account map are pairwise distinct. -/
def Bank.NodupKeys (b : Bank) : Prop :=
  (b.accts.map (fun p => p.1)).Nodup

/-!
Pointer-level model of Create and Get, at the granularity of the Go
heap: the map stores pointers to heap-allocated Account records, and
Create hands the caller the very pointer it stored (return a), while
Get dereferences and returns a fresh copy (cp gets the record value).
This resolves what the value-level model cannot express: whether a
caller mutation through a returned reference reaches ledger state.
-/

/-- Bank state with the pointer indirection explicit: heap cell p
holds the Account record at list position p, and the map binds ids to
heap pointers. -/
structure BankH where
  nextID : Int
  heap : List Account
  accts : List (String × Nat)
deriving DecidableEq

/-- Empty pointer-level bank (NewBank). -/
def BankH.init : BankH := { nextID := 0, heap := [], accts := [] }

/-- Pointer-level Create: allocates the record on the heap, stores the
pointer in the map, and returns that same pointer to the caller, as
the source does with return a. -/
def BankH.CreateP (b : BankH) (name : String) (balance : Int) :
    Except Err Nat × BankH :=
  if balance < 0 then (Except.error Err.badAmount, b)
  else
    let id := toString (b.nextID + 1)
    let p := b.heap.length
    let a : Account := { ID := id, Name := name, Balance := balance, Logs := [] }
    (Except.ok p,
      { nextID := b.nextID + 1,
        heap := b.heap ++ [a],
        accts := updateA b.accts id p })

/-- Pointer-level Get: looks up the stored pointer, dereferences it
and returns a copy of the record value (cp gets the record, the
address of cp is returned). -/
def BankH.GetP (b : BankH) (id : String) : Except Err Account :=
  match lookupA b.accts id with
  | none => Except.error Err.notFound
  | some p =>
    match b.heap.get? p with
    | some a => Except.ok a
    | none => Except.error Err.notFound

/-- A caller writing field Balance through an Account pointer: the
heap cell behind the pointer is overwritten. -/
def writeBalance : List Account → Nat → Int → List Account
  | [], _, _ => []
  | a :: rest, 0, v => { a with Balance := v } :: rest
  | a :: rest, p + 1, v => a :: writeBalance rest p v

/-- The pointer-level bank after a caller stores v in the Balance
field of the record behind pointer p. -/
def BankH.callerWrite (b : BankH) (p : Nat) (v : Int) : BankH :=
  { b with heap := writeBalance b.heap p v }

instance {ε α : Type} [DecidableEq ε] [DecidableEq α] :
    DecidableEq (Except ε α) := fun x y =>
  match x, y with
  | Except.error a, Except.error b =>
    decidable_of_iff (a = b) (by constructor <;> (intro h; cases h; rfl))
  | Except.error _, Except.ok _ => isFalse (fun h => Except.noConfusion h)
  | Except.ok _, Except.error _ => isFalse (fun h => Except.noConfusion h)
  | Except.ok a, Except.ok b =>
    decidable_of_iff (a = b) (by constructor <;> (intro h; cases h; rfl))

/-!
Lemmas about the association-list model of the Go map.
-/

theorem lookupA_updateA_self {α : Type} (m : List (String × α)) (k : String)
    (v : α) : lookupA (updateA m k v) k = some v := by
  induction m with
  | nil => simp [lookupA, updateA]
  | cons p rest ih =>
    by_cases h : p.1 = k <;> simp [lookupA, updateA, h, ih]

theorem lookupA_updateA_ne {α : Type} (m : List (String × α)) (k k' : String)
    (v : α) (h : k' ≠ k) :
    lookupA (updateA m k v) k' = lookupA m k' := by
  induction m with
  | nil => simp [lookupA, updateA, Ne.symm h]
  | cons p rest ih =>
    by_cases hp : p.1 = k
    · subst hp
      simp [lookupA, updateA, Ne.symm h]
    · by_cases hp' : p.1 = k' <;> simp [lookupA, updateA, hp, hp', h, ih]

theorem mem_updateA {α : Type} {m : List (String × α)} {k : String} {v : α}
    {p : String × α} (hp : p ∈ updateA m k v) : p = (k, v) ∨ p ∈ m := by
  induction m with
  | nil => simpa [updateA] using hp
  | cons q rest ih =>
    by_cases h : q.1 = k
    · rcases (by simpa [updateA, h] using hp) with h1 | h1
      · left; exact h1
      · right; simp [h1]
    · rcases (by simpa [updateA, h] using hp) with h1 | h1
      · right; simp [h1]
      · rcases ih h1 with h2 | h2
        · left; exact h2
        · right; simp [h2]

theorem lookupA_mem {α : Type} {m : List (String × α)} {id : String} {v : α}
    (h : lookupA m id = some v) : (id, v) ∈ m := by
  induction m with
  | nil => simp [lookupA] at h
  | cons p rest ih =>
    by_cases hp : p.1 = id
    · have h2 : p.2 = v := by simpa [lookupA, hp] using h
      rw [← hp, ← h2]
      simp
    · right
      exact ih (by simpa [lookupA, hp] using h)

theorem sumBal_updateA (m : List (String × Account)) (k : String)
    (a0 a : Account) (h : lookupA m k = some a0) :
    ((updateA m k a).map (fun p => p.2.Balance)).sum
      = (m.map (fun p => p.2.Balance)).sum - a0.Balance + a.Balance := by
  induction m with
  | nil => simp [lookupA] at h
  | cons p rest ih =>
    by_cases hp : p.1 = k
    · have : p.2 = a0 := by simpa [lookupA, hp] using h
      subst this
      simp [updateA, hp]
      ring
    · have h' : lookupA rest k = some a0 := by simpa [lookupA, hp] using h
      simp [updateA, hp, ih h']
      ring

/-- Keys of an association list. -/
def keysOf {α : Type} (m : List (String × α)) : List String :=
  m.map (fun p => p.1)

theorem updateA_notMem {α : Type} (m : List (String × α)) (k : String) (v : α)
    (h : k ∉ keysOf m) : updateA m k v = m ++ [(k, v)] := by
  induction m with
  | nil => simp [updateA]
  | cons p rest ih =>
    have h1 : p.1 ≠ k := by
      intro he
      exact h (by simp [keysOf, he])
    have h2 : k ∉ keysOf rest := by
      intro he
      exact h (by simp [keysOf] at he ⊢; right; exact he)
    simp [updateA, h1, ih h2]

/-- wrap64 is the identity on values already in the int64 range. -/
theorem wrap64_eq_self {x : Int} (h1 : -(2 ^ 63) ≤ x) (h2 : x < 2 ^ 63) :
    wrap64 x = x := by
  unfold wrap64
  rw [Int.emod_eq_of_lt (by omega) (by omega)]
  ring

/-- The result of wrap64 is always an int64 value. -/
theorem isInt64_wrap64 (x : Int) : isInt64 (wrap64 x) := by
  unfold isInt64 wrap64
  omega

/-- Wrapping an already wrapped summand does not change the result:
wrap64 respects congruence modulo the int64 modulus. -/
theorem wrap64_add_wrap64_left (a b : Int) :
    wrap64 (wrap64 a + b) = wrap64 (a + b) := by
  unfold wrap64
  omega

/-- The history entry Transfer appends on the source side. -/
def outEntry (toID : String) (amt : Int) (now : Nat) : Log :=
  { Time := now, Amount := amt, Direction := "out", CounterID := toID,
    Note := "transfer" }

/-- The history entry Transfer appends on the destination side. -/
def inEntry (fromID : String) (amt : Int) (now : Nat) : Log :=
  { Time := now, Amount := amt, Direction := "in", CounterID := fromID,
    Note := "transfer" }

/-- The source account after a successful Transfer debits it. -/
def debited (fa : Account) (toID : String) (amt : Int) (now : Nat) : Account :=
  { fa with
    Balance := wrap64 (fa.Balance - amt),
    Logs := fa.Logs ++ [outEntry toID amt now] }

/-- The destination account after a successful Transfer credits it. -/
def credited (ta : Account) (fromID : String) (amt : Int) (now : Nat) :
    Account :=
  { ta with
    Balance := wrap64 (ta.Balance + amt),
    Logs := ta.Logs ++ [inEntry fromID amt now] }

/-- Explicit shape of a successful Transfer. -/
theorem transfer_success (b : Bank) (fromID toID : String) (amt : Int)
    (now : Nat) (fa ta : Account)
    (hf : lookupA b.accts fromID = some fa)
    (ht : lookupA b.accts toID = some ta)
    (hne : fromID ≠ toID) (hpos : 0 < amt) (hcov : amt ≤ fa.Balance) :
    b.Transfer fromID toID amt now =
      (none,
        { b with accts := updateA (updateA b.accts fromID (debited fa toID amt now)) toID (credited ta fromID amt now) }) := by
  unfold Bank.Transfer
  rw [if_neg (by omega), if_neg hne]
  simp only [hf, ht]
  rw [if_neg (by omega)]
  simp only [debited, credited, outEntry, inEntry]

/-- A Transfer that reports no error passed every check. -/
theorem transfer_none_inv (b : Bank) (fromID toID : String) (amt : Int)
    (now : Nat) (h : (b.Transfer fromID toID amt now).1 = none) :
    0 < amt ∧ fromID ≠ toID ∧
      ∃ fa ta, lookupA b.accts fromID = some fa ∧
        lookupA b.accts toID = some ta ∧ amt ≤ fa.Balance := by
  unfold Bank.Transfer at h
  by_cases h1 : amt ≤ 0
  · rw [if_pos h1] at h
    simp at h
  rw [if_neg h1] at h
  by_cases h2 : fromID = toID
  · rw [if_pos h2] at h
    simp at h
  rw [if_neg h2] at h
  refine ⟨by omega, h2, ?_⟩
  cases hf : lookupA b.accts fromID with
  | none =>
    rw [hf] at h
    cases ht : lookupA b.accts toID <;> rw [ht] at h <;> simp at h
  | some fa =>
    cases ht : lookupA b.accts toID with
    | none =>
      rw [hf, ht] at h
      simp at h
    | some ta =>
      rw [hf, ht] at h
      by_cases h3 : fa.Balance < amt
      · simp [h3] at h
      · exact ⟨fa, ta, rfl, rfl, by omega⟩

/-!
Claim C1: conservation under Transfer.
-/

/-- C1 fails as stated on the code: with both balances at the int64
maximum (legitimate int64 inputs), Transfer succeeds but the credit
wraps, so the pairwise and global balance sums change. -/
theorem C1_counterexample :
    isInt64 (2 ^ 63 - 1) ∧ isInt64 1 ∧
    (((((NewBank.Create "A" (2 ^ 63 - 1)).2.Create "B" (2 ^ 63 - 1)).2.Transfer
        "1" "2" 1 0).1 = none) ∧
      ¬((((NewBank.Create "A" (2 ^ 63 - 1)).2.Create "B" (2 ^ 63 - 1)).2.Transfer
          "1" "2" 1 0).2.balanceOf "1"
        + (((NewBank.Create "A" (2 ^ 63 - 1)).2.Create "B" (2 ^ 63 - 1)).2.Transfer
          "1" "2" 1 0).2.balanceOf "2"
        = ((NewBank.Create "A" (2 ^ 63 - 1)).2.Create "B" (2 ^ 63 - 1)).2.balanceOf "1"
          + ((NewBank.Create "A" (2 ^ 63 - 1)).2.Create "B" (2 ^ 63 - 1)).2.balanceOf "2") ∧
      ¬((((NewBank.Create "A" (2 ^ 63 - 1)).2.Create "B" (2 ^ 63 - 1)).2.Transfer
          "1" "2" 1 0).2.totalBal
        = ((NewBank.Create "A" (2 ^ 63 - 1)).2.Create "B" (2 ^ 63 - 1)).2.totalBal)) := by
  decide

/-- C1 (amended): for every successful Transfer whose stored balances
are int64 values and whose credit does not overflow int64, the sum of
the two involved balances and the global sum over all accounts are
both unchanged. -/
theorem C1_conservation (b : Bank) (fromID toID : String) (amt : Int)
    (now : Nat) (fa ta : Account)
    (hf : lookupA b.accts fromID = some fa)
    (ht : lookupA b.accts toID = some ta)
    (hfa : fa.Balance < 2 ^ 63)
    (hta : -(2 ^ 63) ≤ ta.Balance)
    (hnoOv : ta.Balance + amt < 2 ^ 63)
    (hsucc : (b.Transfer fromID toID amt now).1 = none) :
    (b.Transfer fromID toID amt now).2.balanceOf fromID
        + (b.Transfer fromID toID amt now).2.balanceOf toID
      = b.balanceOf fromID + b.balanceOf toID
    ∧ (b.Transfer fromID toID amt now).2.totalBal = b.totalBal := by
  obtain ⟨hpos, hne, fa0, ta0, hf0, ht0, hcov⟩ :=
    transfer_none_inv b fromID toID amt now hsucc
  rw [hf] at hf0
  rw [ht] at ht0
  cases hf0
  cases ht0
  have hstep := transfer_success b fromID toID amt now fa ta hf ht hne hpos hcov
  have hw1 : wrap64 (fa.Balance - amt) = fa.Balance - amt :=
    wrap64_eq_self (by omega) (by omega)
  have hw2 : wrap64 (ta.Balance + amt) = ta.Balance + amt :=
    wrap64_eq_self (by omega) (by omega)
  constructor
  · rw [hstep]
    unfold Bank.balanceOf
    rw [lookupA_updateA_ne _ toID fromID _ hne, lookupA_updateA_self,
      lookupA_updateA_self, hf, ht]
    simp only [debited, credited, hw1, hw2]
    ring
  · rw [hstep]
    unfold Bank.totalBal
    rw [sumBal_updateA _ toID ta _
        (by rw [lookupA_updateA_ne _ fromID toID _ (Ne.symm hne)]; exact ht),
      sumBal_updateA _ fromID fa _ hf]
    simp only [debited, credited, hw1, hw2]
    ring

/-- Witness: C1_conservation applied to a concrete successful
transfer of 300 between accounts holding 1000 and 500. -/
theorem C1_witness :
    ((((NewBank.Create "A" 1000).2.Create "B" 500).2.Transfer "1" "2" 300 0).2.balanceOf "1"
        + (((NewBank.Create "A" 1000).2.Create "B" 500).2.Transfer "1" "2" 300 0).2.balanceOf "2"
      = ((NewBank.Create "A" 1000).2.Create "B" 500).2.balanceOf "1"
        + ((NewBank.Create "A" 1000).2.Create "B" 500).2.balanceOf "2")
    ∧ (((NewBank.Create "A" 1000).2.Create "B" 500).2.Transfer "1" "2" 300 0).2.totalBal
      = ((NewBank.Create "A" 1000).2.Create "B" 500).2.totalBal :=
  C1_conservation ((NewBank.Create "A" 1000).2.Create "B" 500).2 "1" "2" 300 0
    { ID := "1", Name := "A", Balance := 1000, Logs := [] }
    { ID := "2", Name := "B", Balance := 500, Logs := [] }
    rfl rfl (by decide) (by decide) (by decide) rfl

/-!
Claim C2: balance non-negativity in reachable states.
-/

/-- One call preserves non-negative in-range balances when its
arithmetic stays inside int64. -/
theorem good_stepOp (b : Bank) (op : Op) (hg : b.Good) (hok : okAt b op) :
    (stepOp b op).Good := by
  cases op with
  | create name balance =>
    simp only [okAt] at hok
    simp only [stepOp, Bank.Create, Bank.newID]
    by_cases h : balance < 0
    · simpa [h] using hg
    · simp only [h, if_false]
      intro p hp
      rcases mem_updateA hp with h1 | h1
      · rw [h1]
        refine ⟨?_, ?_⟩
        · show (0 : Int) ≤ balance
          omega
        · show balance < 2 ^ 63
          exact hok
      · exact hg p h1
  | deposit id amt now =>
    simp only [okAt] at hok
    simp only [stepOp, Bank.Deposit]
    by_cases h : amt ≤ 0
    · simpa [h] using hg
    · simp only [h, if_false]
      cases hf : lookupA b.accts id with
      | none => exact hg
      | some a =>
        rw [hf] at hok
        have ha : 0 ≤ a.Balance ∧ a.Balance < 2 ^ 63 :=
          hg (id, a) (lookupA_mem hf)
        have hw : wrap64 (a.Balance + amt) = a.Balance + amt :=
          wrap64_eq_self (by omega) (by omega)
        intro p hp
        rcases mem_updateA hp with h1 | h1
        · rw [h1]
          refine ⟨?_, ?_⟩
          · show (0 : Int) ≤ wrap64 (a.Balance + amt)
            rw [hw]
            omega
          · show wrap64 (a.Balance + amt) < 2 ^ 63
            rw [hw]
            omega
        · exact hg p h1
  | withdraw id amt now =>
    simp only [stepOp, Bank.Withdraw]
    by_cases h : amt ≤ 0
    · simpa [h] using hg
    · simp only [h, if_false]
      cases hf : lookupA b.accts id with
      | none => exact hg
      | some a =>
        have ha : 0 ≤ a.Balance ∧ a.Balance < 2 ^ 63 :=
          hg (id, a) (lookupA_mem hf)
        by_cases h3 : a.Balance < amt
        · simpa [h3] using hg
        · simp only [h3, if_false]
          have hw : wrap64 (a.Balance - amt) = a.Balance - amt :=
            wrap64_eq_self (by omega) (by omega)
          intro p hp
          rcases mem_updateA hp with h1 | h1
          · rw [h1]
            refine ⟨?_, ?_⟩
            · show (0 : Int) ≤ wrap64 (a.Balance - amt)
              rw [hw]
              omega
            · show wrap64 (a.Balance - amt) < 2 ^ 63
              rw [hw]
              omega
          · exact hg p h1
  | transfer fromID toID amt now =>
    simp only [okAt] at hok
    simp only [stepOp]
    by_cases h1 : amt ≤ 0
    · simp only [Bank.Transfer, h1, if_true]
      exact hg
    by_cases h2 : fromID = toID
    · simp only [Bank.Transfer, h1, if_false, h2, if_true]
      exact hg
    cases hf : lookupA b.accts fromID with
    | none =>
      unfold Bank.Transfer
      rw [if_neg h1, if_neg h2, hf]
      cases ht : lookupA b.accts toID <;> exact hg
    | some fa =>
      cases ht : lookupA b.accts toID with
      | none =>
        unfold Bank.Transfer
        rw [if_neg h1, if_neg h2, hf, ht]
        exact hg
      | some ta =>
        rw [ht] at hok
        have hfa : 0 ≤ fa.Balance ∧ fa.Balance < 2 ^ 63 :=
          hg (fromID, fa) (lookupA_mem hf)
        have hta : 0 ≤ ta.Balance ∧ ta.Balance < 2 ^ 63 :=
          hg (toID, ta) (lookupA_mem ht)
        by_cases h3 : fa.Balance < amt
        · unfold Bank.Transfer
          rw [if_neg h1, if_neg h2, hf, ht]
          simpa [h3] using hg
        · rw [transfer_success b fromID toID amt now fa ta hf ht h2
            (by omega) (by omega)]
          have hwt : wrap64 (ta.Balance + amt) = ta.Balance + amt :=
            wrap64_eq_self (by omega) (by omega)
          have hwf : wrap64 (fa.Balance - amt) = fa.Balance - amt :=
            wrap64_eq_self (by omega) (by omega)
          intro p hp
          rcases mem_updateA hp with hp1 | hp2
          · rw [hp1]
            refine ⟨?_, ?_⟩
            · show (0 : Int) ≤ wrap64 (ta.Balance + amt)
              rw [hwt]
              omega
            · show wrap64 (ta.Balance + amt) < 2 ^ 63
              rw [hwt]
              omega
          · rcases mem_updateA hp2 with hp1 | hp1
            · rw [hp1]
              refine ⟨?_, ?_⟩
              · show (0 : Int) ≤ wrap64 (fa.Balance - amt)
                rw [hwf]
                omega
              · show wrap64 (fa.Balance - amt) < 2 ^ 63
                rw [hwf]
                omega
            · exact hg p hp1
  | get id => exact hg
  | listAll => exact hg
  | logs id => exact hg
  | snapshot => exact hg

/-- A trace whose arithmetic stays inside int64 preserves Good. -/
theorem good_runOps (ops : List Op) :
    ∀ b : Bank, b.Good → okRun b ops → (runOps b ops).Good := by
  induction ops with
  | nil =>
    intro b hg _
    simpa [runOps] using hg
  | cons op rest ih =>
    intro b hg hok
    simp only [okRun] at hok
    have h2 := ih (stepOp b op) (good_stepOp b op hg hok.1) hok.2
    simpa [runOps, List.foldl] using h2

/-- C2 fails as stated on the code: both amounts are legitimate int64
inputs, yet after Create at the int64 maximum a Deposit of 1 wraps the
balance to a negative value. -/
theorem C2_counterexample :
    isInt64 (2 ^ 63 - 1) ∧ isInt64 1 ∧
    (runOps NewBank [Op.create "A" (2 ^ 63 - 1), Op.deposit "1" 1 0]).balanceOf "1" < 0 := by
  decide

/-- C2 (amended): in every state reachable from a fresh ledger by
Create, Deposit, Withdraw, Transfer, Get, List, Logs and Snapshot
calls none of which overflows the int64 balance arithmetic, every
account balance is non-negative. -/
theorem C2_nonneg (ops : List Op) (h : okRun NewBank ops) :
    ∀ p ∈ (runOps NewBank ops).accts, 0 ≤ p.2.Balance := by
  intro p hp
  have hg : NewBank.Good := by
    intro q hq
    simp [NewBank] at hq
  exact (good_runOps ops NewBank hg h p hp).1

/-- Witness: C2_nonneg applied to a one-Create trace and the account
it creates. -/
theorem C2_witness :
    okRun NewBank [Op.create "A" 1000] ∧
    0 ≤ (("1", Account.mk "1" "A" 1000 []) : String × Account).2.Balance :=
  ⟨by decide,
    C2_nonneg [Op.create "A" 1000] (by decide)
      ("1", Account.mk "1" "A" 1000 []) (by decide)⟩

/-!
Claim C3: effects of a successful Transfer.
-/

/-- C3 fails as stated on the code: all hypotheses of the claim hold
(both accounts exist, distinct ids, positive amount, covered source),
yet with the destination at the int64 maximum the credit wraps, so the
destination balance does not increase by the amount. -/
theorem C3_counterexample :
    isInt64 1 ∧ isInt64 (2 ^ 63 - 1) ∧
    ((((NewBank.Create "A" 1).2.Create "B" (2 ^ 63 - 1)).2.Transfer
        "1" "2" 1 0).1 = none) ∧
    ¬((((NewBank.Create "A" 1).2.Create "B" (2 ^ 63 - 1)).2.Transfer
        "1" "2" 1 0).2.balanceOf "2"
      = ((NewBank.Create "A" 1).2.Create "B" (2 ^ 63 - 1)).2.balanceOf "2" + 1) := by
  decide

/-- C3 (amended): a Transfer whose accounts exist, with distinct ids,
positive amount covered by the source, int64 stored balances and a
non-overflowing credit, succeeds, debits the source by exactly amt,
credits the destination by exactly amt, appends exactly one out entry
(amount amt, counterparty toID) to the source and one in entry
(amount amt, counterparty fromID) to the destination, and both entries
carry the same timestamp. -/
theorem C3_transfer_effects (b : Bank) (fromID toID : String) (amt : Int)
    (now : Nat) (fa ta : Account)
    (hf : lookupA b.accts fromID = some fa)
    (ht : lookupA b.accts toID = some ta)
    (hne : fromID ≠ toID) (hpos : 0 < amt) (hcov : amt ≤ fa.Balance)
    (hfa : fa.Balance < 2 ^ 63)
    (hta : -(2 ^ 63) ≤ ta.Balance)
    (hnoOv : ta.Balance + amt < 2 ^ 63) :
    (b.Transfer fromID toID amt now).1 = none
    ∧ lookupA (b.Transfer fromID toID amt now).2.accts fromID
      = some { fa with Balance := fa.Balance - amt, Logs := fa.Logs ++ [outEntry toID amt now] }
    ∧ lookupA (b.Transfer fromID toID amt now).2.accts toID
      = some { ta with Balance := ta.Balance + amt, Logs := ta.Logs ++ [inEntry fromID amt now] }
    ∧ (outEntry toID amt now).Time = (inEntry fromID amt now).Time := by
  rw [transfer_success b fromID toID amt now fa ta hf ht hne hpos hcov]
  have hwf : wrap64 (fa.Balance - amt) = fa.Balance - amt :=
    wrap64_eq_self (by omega) (by omega)
  have hwt : wrap64 (ta.Balance + amt) = ta.Balance + amt :=
    wrap64_eq_self (by omega) (by omega)
  refine ⟨rfl, ?_, ?_, rfl⟩
  · rw [lookupA_updateA_ne _ toID fromID _ hne, lookupA_updateA_self]
    simp [debited, hwf]
  · rw [lookupA_updateA_self]
    simp [credited, hwt]

/-- Witness: C3_transfer_effects applied to a concrete transfer of 300
from an account holding 1000 to one holding 500, at tick 7. -/
theorem C3_witness :
    ((((NewBank.Create "A" 1000).2.Create "B" 500).2.Transfer "1" "2" 300 7).1 = none)
    ∧ lookupA (((NewBank.Create "A" 1000).2.Create "B" 500).2.Transfer
        "1" "2" 300 7).2.accts "1"
      = some { ID := "1", Name := "A", Balance := 1000 - 300, Logs := [outEntry "2" 300 7] }
    ∧ lookupA (((NewBank.Create "A" 1000).2.Create "B" 500).2.Transfer
        "1" "2" 300 7).2.accts "2"
      = some { ID := "2", Name := "B", Balance := 500 + 300, Logs := [inEntry "1" 300 7] }
    ∧ (outEntry "2" 300 7).Time = (inEntry "1" 300 7).Time :=
  C3_transfer_effects ((NewBank.Create "A" 1000).2.Create "B" 500).2 "1" "2" 300 7
    { ID := "1", Name := "A", Balance := 1000, Logs := [] }
    { ID := "2", Name := "B", Balance := 500, Logs := [] }
    rfl rfl (by decide) (by decide) (by decide) (by decide) (by decide) (by decide)

/-!
Claim C4: the concrete scenario
Create(A,1000); Create(B,500); Deposit(A,200); Withdraw(B,100);
Transfer(A,B,800); Transfer(A,A,1); Transfer(A,B,999999),
run at clock ticks 10,11,12,13,14.
-/

/-- Scenario state after the two Creates. -/
def demoB2 : Bank := ((NewBank.Create "A" 1000).2.Create "B" 500).2

/-- Scenario state after Deposit(A,200) at tick 10. -/
def demoB3 : Bank := (demoB2.Deposit "1" 200 10).2

/-- Scenario state after Withdraw(B,100) at tick 11. -/
def demoB4 : Bank := (demoB3.Withdraw "2" 100 11).2

/-- Scenario state after Transfer(A,B,800) at tick 12. -/
def demoB5 : Bank := (demoB4.Transfer "1" "2" 800 12).2

/-- Scenario state after the rejected Transfer(A,A,1). -/
def demoB6 : Bank := (demoB5.Transfer "1" "1" 1 13).2

/-- Scenario state after the rejected Transfer(A,B,999999). -/
def demoB7 : Bank := (demoB6.Transfer "1" "2" 999999 14).2

/-- C4 fails as stated on the code: at the end of the scenario,
Logs(B) returns two history entries, not the three the claim lists
(the Deposit of 200 went to account A, so no in/200 entry exists on
B). -/
theorem C4_counterexample :
    Except.map List.length (demoB7.Logs "2") = Except.ok 2 ∧
    ¬Except.map List.length (demoB7.Logs "2") = Except.ok 3 := by
  decide

/-- C4 (amended): the scenario behaves exactly as claimed except that
Logs(B) returns exactly 2 entries, out/100 then in/800 with
counterparty A. -/
theorem C4_scenario :
    (NewBank.Create "A" 1000).1 = Except.ok (Account.mk "1" "A" 1000 [])
  ∧ ((NewBank.Create "A" 1000).2.Create "B" 500).1
      = Except.ok (Account.mk "2" "B" 500 [])
  ∧ ("1" : String) ≠ "2" ∧ ("1" : String) ≠ "" ∧ ("2" : String) ≠ ""
  ∧ (demoB2.Deposit "1" 200 10).1
      = Except.ok (Account.mk "1" "A" 1200 [Log.mk 10 200 "in" "" "deposit"])
  ∧ (demoB3.Withdraw "2" 100 11).1
      = Except.ok (Account.mk "2" "B" 400 [Log.mk 11 100 "out" "" "withdraw"])
  ∧ (demoB4.Transfer "1" "2" 800 12).1 = none
  ∧ demoB5.balanceOf "1" = 400 ∧ demoB5.balanceOf "2" = 1200
  ∧ (demoB5.Transfer "1" "1" 1 13).1 = some Err.sameAccount
  ∧ demoB6 = demoB5
  ∧ (demoB6.Transfer "1" "2" 999999 14).1 = some Err.insufficient
  ∧ demoB7 = demoB5
  ∧ demoB7.balanceOf "1" = 400 ∧ demoB7.balanceOf "2" = 1200
  ∧ demoB7.Logs "2"
      = Except.ok [Log.mk 11 100 "out" "" "withdraw",
                   Log.mk 12 800 "in" "1" "transfer"] := by
  decide

/-!
Claim C5: failed calls leave the ledger untouched.
-/

/-- C5: whenever Create, Deposit, Withdraw or Transfer reports an
error, the resulting ledger state (all balances, histories and the
identifier counter) is exactly the state before the call; moreover a
Withdraw whose positive amount exceeds the balance reports
insufficient balance. -/
theorem C5_error_atomicity (b : Bank) (name id fromID toID : String)
    (bal amt : Int) (now : Nat) :
    (∀ e, (b.Create name bal).1 = Except.error e → (b.Create name bal).2 = b)
  ∧ (∀ e, (b.Deposit id amt now).1 = Except.error e →
      (b.Deposit id amt now).2 = b)
  ∧ (∀ e, (b.Withdraw id amt now).1 = Except.error e →
      (b.Withdraw id amt now).2 = b)
  ∧ (∀ e, (b.Transfer fromID toID amt now).1 = some e →
      (b.Transfer fromID toID amt now).2 = b)
  ∧ (∀ a, lookupA b.accts id = some a → 0 < amt → a.Balance < amt →
      (b.Withdraw id amt now).1 = Except.error Err.insufficient) := by
  refine ⟨?_, ?_, ?_, ?_, ?_⟩
  · intro e h
    by_cases hb : bal < 0
    · simp [Bank.Create, hb]
    · simp [Bank.Create, Bank.newID, hb] at h
  · intro e h
    by_cases h1 : amt ≤ 0
    · simp [Bank.Deposit, h1]
    · cases hf : lookupA b.accts id with
      | none => simp [Bank.Deposit, h1, hf]
      | some a => simp [Bank.Deposit, h1, hf] at h
  · intro e h
    by_cases h1 : amt ≤ 0
    · simp [Bank.Withdraw, h1]
    · cases hf : lookupA b.accts id with
      | none => simp [Bank.Withdraw, h1, hf]
      | some a =>
        by_cases h3 : a.Balance < amt
        · simp [Bank.Withdraw, h1, hf, h3]
        · simp [Bank.Withdraw, h1, hf, h3] at h
  · intro e h
    by_cases h1 : amt ≤ 0
    · simp [Bank.Transfer, h1]
    by_cases h2 : fromID = toID
    · simp [Bank.Transfer, h1, h2]
    cases hf : lookupA b.accts fromID with
    | none =>
      cases ht : lookupA b.accts toID <;>
        simp [Bank.Transfer, h1, h2, hf, ht]
    | some fa =>
      cases ht : lookupA b.accts toID with
      | none => simp [Bank.Transfer, h1, h2, hf, ht]
      | some ta =>
        by_cases h3 : fa.Balance < amt
        · simp [Bank.Transfer, h1, h2, hf, ht, h3]
        · simp [Bank.Transfer, h1, h2, hf, ht, h3] at h
  · intro a hfa hpos hlt
    simp [Bank.Withdraw, hfa, hlt, show ¬amt ≤ 0 by omega]

/-- Witness: C5_error_atomicity applied to Withdraw(200) on an account
holding 100: the call reports insufficient balance and the ledger is
unchanged. -/
theorem C5_witness :
    ((NewBank.Create "A" 100).2.Withdraw "1" 200 0).1
        = Except.error Err.insufficient
    ∧ ((NewBank.Create "A" 100).2.Withdraw "1" 200 0).2
        = (NewBank.Create "A" 100).2 :=
  ⟨(C5_error_atomicity (NewBank.Create "A" 100).2 "A" "1" "1" "1" 0 200 0).2.2.2.2
      (Account.mk "1" "A" 100 []) rfl (by decide) (by decide),
    (C5_error_atomicity (NewBank.Create "A" 100).2 "A" "1" "1" "1" 0 200 0).2.2.1
      Err.insufficient
      ((C5_error_atomicity (NewBank.Create "A" 100).2 "A" "1" "1" "1" 0 200 0).2.2.2.2
        (Account.mk "1" "A" 100 []) rfl (by decide) (by decide))⟩

/-!
Claim C6: Restore(Snapshot()) reproduces the ledger.
-/

/-- Keys of an appended association list. -/
theorem keysOf_append {α : Type} (m1 m2 : List (String × α)) :
    keysOf (m1 ++ m2) = keysOf m1 ++ keysOf m2 := by
  simp [keysOf]

/-- The boxing into a slice of any followed by the JSON round-trip
restores the history list unchanged. -/
theorem toAnySlice_roundTrip (xs : List Log) :
    (toAnySlice xs).map jsonLogRoundTrip = xs := by
  induction xs with
  | nil => simp [toAnySlice]
  | cons x xs ih => simpa [toAnySlice, jsonLogRoundTrip] using ih

instance (b : Bank) : Decidable b.KeyInv := by
  unfold Bank.KeyInv; infer_instance

instance (b : Bank) : Decidable b.NodupKeys := by
  unfold Bank.NodupKeys; infer_instance

/-- Rebuilding the map from snapshot records restores the original
association list when keys are distinct and match the stored IDs. -/
theorem restoreBuild_eq (l : List (String × Account)) :
    ∀ acc : List (String × Account),
    (∀ p ∈ l, p.1 = p.2.ID) →
    ((l.map (fun p => p.1)).Nodup) →
    (∀ p ∈ l, p.1 ∉ keysOf acc) →
    List.foldl (fun m p => updateA m p.2.ID
      (Account.mk p.2.ID p.2.Name p.2.Balance
        ((toAnySlice p.2.Logs).map jsonLogRoundTrip))) acc l = acc ++ l := by
  induction l with
  | nil =>
    intro acc _ _ _
    simp
  | cons p rest ih =>
    intro acc hkey hnd hdisj
    have hnd' : (p.1 :: List.map (fun r => r.1) rest).Nodup := by
      simpa using hnd
    have hp1 : p.1 = p.2.ID := hkey p (by simp)
    have hrebuild :
        Account.mk p.2.ID p.2.Name p.2.Balance
          ((toAnySlice p.2.Logs).map jsonLogRoundTrip) = p.2 := by
      rw [toAnySlice_roundTrip]
    have hins :
        updateA acc p.2.ID
          (Account.mk p.2.ID p.2.Name p.2.Balance
            ((toAnySlice p.2.Logs).map jsonLogRoundTrip)) = acc ++ [p] := by
      rw [updateA_notMem acc _ _ (by rw [← hp1]; exact hdisj p (by simp)),
        hrebuild, ← hp1]
    rw [List.foldl_cons, hins,
      ih (acc ++ [p]) (fun q hq => hkey q (by simp [hq]))
        ((List.nodup_cons.mp hnd').2)
        ?_]
    · simp
    · intro q hq
      rw [keysOf_append]
      simp only [List.mem_append]
      push_neg
      refine ⟨hdisj q (by simp [hq]), ?_⟩
      have hne : q.1 ≠ p.1 := by
        intro he
        have hmem : q.1 ∈ List.map (fun r => r.1) rest :=
          List.mem_map.mpr ⟨q, hq, rfl⟩
        rw [he] at hmem
        exact (List.nodup_cons.mp hnd').1 hmem
      simp [keysOf, hne]

/-- C6: for a ledger whose map keys are distinct and match the stored
account IDs (true of every reachable ledger), restoring its snapshot
into a fresh ledger reproduces the ledger exactly: same id set, names,
balances, counter and full ordered histories. -/
theorem C6_roundTrip (b : Bank) (hkey : b.KeyInv) (hnd : b.NodupKeys) :
    NewBank.Restore b.Snapshot = b := by
  unfold Bank.Restore Bank.Snapshot
  simp only [List.foldl_map]
  rw [restoreBuild_eq b.accts [] hkey hnd (by simp [keysOf])]
  simp

/-- Witness: C6_roundTrip applied to a two-account ledger. -/
theorem C6_witness :
    NewBank.Restore ((NewBank.Create "A" 7).2.Create "B" 8).2.Snapshot
      = ((NewBank.Create "A" 7).2.Create "B" 8).2 :=
  C6_roundTrip ((NewBank.Create "A" 7).2.Create "B" 8).2 (by decide) (by decide)

/-!
Claim C7: copy discipline of returned values.
-/

/-- C7 fails on the code: at the pointer level, Create stores a
pointer in the map and returns that same pointer (return a), not a
copy, contradicting both the claim and the comment on the source.  A
caller write through the returned pointer changes what the ledger
itself subsequently reports: after Create(A,100) returns pointer 0,
writing balance 999 through it makes Get report 999. -/
theorem C7_create_returns_alias :
    ((BankH.init.CreateP "A" 100).1 = Except.ok 0)
    ∧ lookupA (BankH.init.CreateP "A" 100).2.accts "1" = some 0
    ∧ (BankH.init.CreateP "A" 100).2.GetP "1"
      = Except.ok (Account.mk "1" "A" 100 [])
    ∧ ((BankH.init.CreateP "A" 100).2.callerWrite 0 999).GetP "1"
      = Except.ok (Account.mk "1" "A" 999 []) := by
  decide

/-!
Claim C8: map keys equal stored account IDs in every reachable state.
-/

/-- The Restore rebuild only inserts bindings whose key is the ID of
the inserted record. -/
theorem keyInv_restoreBuild (l : List PersistAccount) :
    ∀ acc : List (String × Account), (∀ p ∈ acc, p.1 = p.2.ID) →
    ∀ p ∈ l.foldl (fun m pa => updateA m pa.ID
      (Account.mk pa.ID pa.Name pa.Balance (pa.Logs.map jsonLogRoundTrip)))
      acc, p.1 = p.2.ID := by
  induction l with
  | nil =>
    intro acc hacc p hp
    exact hacc p hp
  | cons pa rest ih =>
    intro acc hacc p hp
    refine ih _ ?_ p hp
    intro q hq
    rcases mem_updateA hq with h1 | h1
    · rw [h1]
    · exact hacc q h1

/-- Each basic call preserves the key invariant. -/
theorem keyInv_stepOp (b : Bank) (op : Op) (h : b.KeyInv) :
    (stepOp b op).KeyInv := by
  cases op with
  | create name balance =>
    simp only [stepOp, Bank.Create, Bank.newID]
    by_cases hb : balance < 0
    · simpa [hb] using h
    · simp only [hb, if_false]
      intro p hp
      rcases mem_updateA hp with h1 | h1
      · rw [h1]
      · exact h p h1
  | deposit id amt now =>
    simp only [stepOp, Bank.Deposit]
    by_cases h1 : amt ≤ 0
    · simpa [h1] using h
    · simp only [h1, if_false]
      cases hf : lookupA b.accts id with
      | none => exact h
      | some a =>
        have hid : id = a.ID := h (id, a) (lookupA_mem hf)
        intro p hp
        rcases mem_updateA hp with h2 | h2
        · rw [h2]
          exact hid
        · exact h p h2
  | withdraw id amt now =>
    simp only [stepOp, Bank.Withdraw]
    by_cases h1 : amt ≤ 0
    · simpa [h1] using h
    · simp only [h1, if_false]
      cases hf : lookupA b.accts id with
      | none => exact h
      | some a =>
        have hid : id = a.ID := h (id, a) (lookupA_mem hf)
        by_cases h3 : a.Balance < amt
        · simpa [h3] using h
        · simp only [h3, if_false]
          intro p hp
          rcases mem_updateA hp with h2 | h2
          · rw [h2]
            exact hid
          · exact h p h2
  | transfer fromID toID amt now =>
    simp only [stepOp]
    by_cases h1 : amt ≤ 0
    · simp only [Bank.Transfer, h1, if_true]
      exact h
    by_cases h2 : fromID = toID
    · simp only [Bank.Transfer, h1, if_false, h2, if_true]
      exact h
    cases hf : lookupA b.accts fromID with
    | none =>
      unfold Bank.Transfer
      rw [if_neg h1, if_neg h2, hf]
      cases ht : lookupA b.accts toID <;> exact h
    | some fa =>
      cases ht : lookupA b.accts toID with
      | none =>
        unfold Bank.Transfer
        rw [if_neg h1, if_neg h2, hf, ht]
        exact h
      | some ta =>
        have hidf : fromID = fa.ID := h (fromID, fa) (lookupA_mem hf)
        have hidt : toID = ta.ID := h (toID, ta) (lookupA_mem ht)
        by_cases h3 : fa.Balance < amt
        · unfold Bank.Transfer
          rw [if_neg h1, if_neg h2, hf, ht]
          simpa [h3] using h
        · rw [transfer_success b fromID toID amt now fa ta hf ht h2
            (by omega) (by omega)]
          intro p hp
          rcases mem_updateA hp with hp1 | hp2
          · rw [hp1]
            exact hidt
          · rcases mem_updateA hp2 with hp1 | hp1
            · rw [hp1]
              exact hidf
            · exact h p hp1
  | get id => exact h
  | listAll => exact h
  | logs id => exact h
  | snapshot => exact h

/-- Every call, Restore included, preserves the key invariant. -/
theorem keyInv_stepOpF (b : Bank) (op : OpF) (h : b.KeyInv) :
    (stepOpF b op).KeyInv := by
  cases op with
  | basic op => exact keyInv_stepOp b op h
  | restore s =>
    intro p hp
    exact keyInv_restoreBuild s.Accounts [] (by simp) p hp

/-- Key invariant along any trace. -/
theorem keyInv_runOpsF (ops : List OpF) :
    ∀ b : Bank, b.KeyInv → (runOpsF b ops).KeyInv := by
  induction ops with
  | nil =>
    intro b h
    simpa [runOpsF] using h
  | cons op rest ih =>
    intro b h
    have h2 := ih (stepOpF b op) (keyInv_stepOpF b op h)
    simpa [runOpsF, List.foldl] using h2

/-- C8: in every state reachable from a fresh ledger by any sequence
of calls, Create and Restore included, every key of the account map
equals the ID of the record it binds. -/
theorem C8_key_invariant (ops : List OpF) : (runOpsF NewBank ops).KeyInv :=
  keyInv_runOpsF ops NewBank (by intro p hp; simp [NewBank] at hp)

/-!
Claim C9: ids are the decimal representations of the Create counter.
The id rendered by newID is toString of the counter; the lemmas below
establish that this decimal rendering is injective and never empty, by
evaluating digit strings back to numbers.
-/

/-- Numeric value of a decimal digit character. -/
def digitVal (c : Char) : Nat := c.toNat - 48

/-- Value of a most-significant-first digit string, on top of an
accumulated prefix value. -/
def vfold : Nat → List Char → Nat
  | a, [] => a
  | a, c :: cs => vfold (10 * a + digitVal c) cs

theorem vfold_append (xs : List Char) :
    ∀ (a : Nat) (ys : List Char), vfold a (xs ++ ys) = vfold (vfold a xs) ys := by
  induction xs with
  | nil => intro a ys; rfl
  | cons c cs ih =>
    intro a ys
    show vfold (10 * a + digitVal c) (cs ++ ys)
      = vfold (vfold (10 * a + digitVal c) cs) ys
    exact ih (10 * a + digitVal c) ys

theorem digitVal_digitChar (d : Nat) (hd : d < 10) :
    digitVal (Nat.digitChar d) = d := by
  interval_cases d <;> rfl

theorem toDigitsCore_append (fuel : Nat) :
    ∀ (n : Nat) (ds : List Char),
      Nat.toDigitsCore 10 fuel n ds = Nat.toDigitsCore 10 fuel n [] ++ ds := by
  induction fuel with
  | zero => intro n ds; simp [Nat.toDigitsCore]
  | succ fuel ih =>
    intro n ds
    simp only [Nat.toDigitsCore]
    by_cases h : n / 10 = 0
    · simp [h]
    · simp only [h, if_false]
      rw [ih (n / 10) (Nat.digitChar (n % 10) :: ds),
        ih (n / 10) [Nat.digitChar (n % 10)], List.append_assoc]
      rfl

theorem vfold_toDigitsCore (fuel : Nat) :
    ∀ n : Nat, n < 10 ^ fuel →
      vfold 0 (Nat.toDigitsCore 10 fuel n []) = n := by
  induction fuel with
  | zero =>
    intro n hn
    interval_cases n
    rfl
  | succ fuel ih =>
    intro n hn
    simp only [Nat.toDigitsCore]
    by_cases h : n / 10 = 0
    · have hn10 : n < 10 := by omega
      simp only [h, if_true]
      show vfold (10 * 0 + digitVal (Nat.digitChar (n % 10))) [] = n
      rw [digitVal_digitChar (n % 10) (Nat.mod_lt n (by omega))]
      show 10 * 0 + n % 10 = n
      omega
    · simp only [h, if_false]
      rw [toDigitsCore_append fuel (n / 10) [Nat.digitChar (n % 10)],
        vfold_append, ih (n / 10) ?_]
      · show vfold (10 * (n / 10) + digitVal (Nat.digitChar (n % 10))) [] = n
        rw [digitVal_digitChar (n % 10) (Nat.mod_lt n (by omega))]
        show 10 * (n / 10) + n % 10 = n
        omega
      · rw [pow_succ] at hn
        omega

theorem vfold_toDigits (n : Nat) : vfold 0 (Nat.toDigits 10 n) = n := by
  unfold Nat.toDigits
  refine vfold_toDigitsCore (n + 1) n ?_
  calc n < 2 ^ n := Nat.lt_two_pow n
  _ ≤ 10 ^ n := Nat.pow_le_pow_left (by norm_num) n
  _ ≤ 10 ^ (n + 1) := Nat.pow_le_pow_right (by norm_num) (by omega)

/-- The decimal rendering of naturals is injective. -/
theorem natRepr_inj (m n : Nat) (h : Nat.repr m = Nat.repr n) : m = n := by
  have hl : Nat.toDigits 10 m = Nat.toDigits 10 n := by
    have hd := congrArg String.data h
    simpa [Nat.repr, List.asString] using hd
  calc m = vfold 0 (Nat.toDigits 10 m) := (vfold_toDigits m).symm
  _ = vfold 0 (Nat.toDigits 10 n) := by rw [hl]
  _ = n := vfold_toDigits n

/-- The decimal rendering of a natural is never the empty string. -/
theorem natRepr_ne_empty (n : Nat) : Nat.repr n ≠ "" := by
  intro h
  have hl : Nat.toDigits 10 n = [] := by
    have hd := congrArg String.data h
    simpa [Nat.repr, List.asString] using hd
  have h0 : n = 0 := by
    have h2 := vfold_toDigits n
    rw [hl] at h2
    exact h2.symm
  subst h0
  exact absurd h (by decide)

/-- toString on a natural cast into Int is the decimal rendering. -/
theorem toString_int_coe (k : Nat) : toString ((k : Nat) : Int) = Nat.repr k :=
  rfl

/-- Whether a Create call succeeds (its initial balance is
non-negative); this is independent of the ledger state. -/
def isOkCreate : Op → Bool
  | Op.create _ balance => decide (0 ≤ balance)
  | _ => false

/-- Number of successful Create calls in a trace. -/
def succCreateCount (ops : List Op) : Nat := (ops.filter isOkCreate).length

/-- One call bumps the counter (with int64 wrap) exactly when it is a
successful Create. -/
theorem nextID_stepOp (b : Bank) (op : Op) :
    (stepOp b op).nextID
      = (if isOkCreate op then wrap64 (b.nextID + 1) else b.nextID) := by
  cases op with
  | create name balance =>
    simp only [stepOp, Bank.Create, Bank.newID, isOkCreate]
    by_cases hb : balance < 0
    · rw [if_pos hb]
      have hd : decide (0 ≤ balance) = false := by
        simp only [decide_eq_false_iff_not]
        omega
      simp [hd]
    · rw [if_neg hb]
      have hd : decide (0 ≤ balance) = true := by
        simp only [decide_eq_true_eq]
        omega
      simp [hd]
  | deposit id amt now =>
    simp only [stepOp, Bank.Deposit, isOkCreate]
    by_cases h1 : amt ≤ 0
    · simp [h1]
    · simp only [h1, if_false]
      cases hf : lookupA b.accts id <;> simp
  | withdraw id amt now =>
    simp only [stepOp, Bank.Withdraw, isOkCreate]
    by_cases h1 : amt ≤ 0
    · simp [h1]
    · simp only [h1, if_false]
      cases hf : lookupA b.accts id with
      | none => simp
      | some a =>
        by_cases h3 : a.Balance < amt <;> simp [h3]
  | transfer fromID toID amt now =>
    simp only [stepOp, isOkCreate]
    by_cases h1 : amt ≤ 0
    · simp [Bank.Transfer, h1]
    by_cases h2 : fromID = toID
    · simp [Bank.Transfer, h1, h2]
    cases hf : lookupA b.accts fromID with
    | none =>
      unfold Bank.Transfer
      rw [if_neg h1, if_neg h2, hf]
      cases ht : lookupA b.accts toID <;> simp
    | some fa =>
      cases ht : lookupA b.accts toID with
      | none =>
        unfold Bank.Transfer
        rw [if_neg h1, if_neg h2, hf, ht]
        simp
      | some ta =>
        unfold Bank.Transfer
        rw [if_neg h1, if_neg h2, hf, ht]
        by_cases h3 : fa.Balance < amt <;> simp [h3]
  | get id => simp [stepOp, isOkCreate]
  | listAll => simp [stepOp, isOkCreate]
  | logs id => simp [stepOp, isOkCreate]
  | snapshot => simp [stepOp, isOkCreate]

/-- The counter after a trace that starts from an int64 counter value
is the int64 wrap of the start value plus the number of successful
Creates. -/
theorem nextID_runOps (ops : List Op) :
    ∀ b : Bank, isInt64 b.nextID →
      (runOps b ops).nextID
        = wrap64 (b.nextID + (succCreateCount ops : Int)) := by
  induction ops with
  | nil =>
    intro b hb
    have h0 : runOps b [] = b := rfl
    have hc : ((succCreateCount [] : Nat) : Int) = 0 := rfl
    rw [h0, hc, add_zero, wrap64_eq_self hb.1 hb.2]
  | cons op rest ih =>
    intro b hb
    have h1 : runOps b (op :: rest) = runOps (stepOp b op) rest := by
      simp [runOps, List.foldl]
    have h2 : succCreateCount (op :: rest)
        = (if isOkCreate op then 1 else 0) + succCreateCount rest := by
      simp only [succCreateCount, List.filter_cons]
      by_cases h : isOkCreate op
      · simp [h]
        omega
      · simp [h]
    by_cases h : isOkCreate op
    · have hstep : (stepOp b op).nextID = wrap64 (b.nextID + 1) := by
        rw [nextID_stepOp b op, if_pos h]
      have hin : isInt64 (stepOp b op).nextID := by
        rw [hstep]
        exact isInt64_wrap64 _
      rw [h1, ih (stepOp b op) hin, hstep, wrap64_add_wrap64_left]
      congr 1
      rw [h2, if_pos h]
      push_cast
      ring
    · have hstep : (stepOp b op).nextID = b.nextID := by
        rw [nextID_stepOp b op, if_neg h]
      have hin : isInt64 (stepOp b op).nextID := by
        rw [hstep]
        exact hb
      rw [h1, ih (stepOp b op) hin, hstep]
      congr 1
      rw [h2, if_neg h]
      push_cast
      ring

/-- Count of successful Creates in a trace of n zero-balance
Creates. -/
theorem succCreateCount_replicate (n : Nat) :
    succCreateCount (List.replicate n (Op.create "A" 0)) = n := by
  induction n with
  | zero => rfl
  | succ n ih =>
    have hstepList :
        List.filter isOkCreate (List.replicate (n + 1) (Op.create "A" 0))
          = Op.create "A" 0
            :: List.filter isOkCreate (List.replicate n (Op.create "A" 0)) :=
      rfl
    simp only [succCreateCount, hstepList, List.length_cons]
    simp only [succCreateCount] at ih
    omega

/-- The value a successful Create returns: the rendered wrapped
counter, the given name and balance, and an empty history. -/
theorem create_success (b : Bank) (name : String) (balance : Int)
    (h : 0 ≤ balance) :
    (b.Create name balance).1
      = Except.ok
          (Account.mk (toString (wrap64 (b.nextID + 1))) name balance []) := by
  unfold Bank.Create Bank.newID
  rw [if_neg (by omega)]

/-- C9 fails as stated on the code: the counter is a Go int64, so at
the 2 ^ 63 rd successful Create atomic.AddInt64 wraps, and the id
returned is the decimal rendering of -2 ^ 63, not of k = 2 ^ 63. -/
theorem C9_counterexample :
    succCreateCount (List.replicate (2 ^ 63 - 1) (Op.create "A" 0))
        = 2 ^ 63 - 1
    ∧ ((runOps NewBank
          (List.replicate (2 ^ 63 - 1) (Op.create "A" 0))).Create "B" 0).1
        = Except.ok (Account.mk "-9223372036854775808" "B" 0 [])
    ∧ ("-9223372036854775808" : String) ≠ toString (((2 ^ 63 : Nat) : Int)) := by
  refine ⟨succCreateCount_replicate _, ?_, ?_⟩
  · have hnid :
        (runOps NewBank
          (List.replicate (2 ^ 63 - 1) (Op.create "A" 0))).nextID
          = 2 ^ 63 - 1 := by
      have h := nextID_runOps (List.replicate (2 ^ 63 - 1) (Op.create "A" 0))
        NewBank (by decide)
      rw [succCreateCount_replicate] at h
      rw [h, show NewBank.nextID = 0 from rfl, zero_add,
        show (((2 ^ 63 - 1 : Nat)) : Int) = 2 ^ 63 - 1 by decide,
        wrap64_eq_self (by norm_num) (by norm_num)]
    rw [create_success _ "B" 0 (by norm_num), hnid,
      show ((2 : Int) ^ 63 - 1 + 1) = 2 ^ 63 by ring,
      show wrap64 ((2 : Int) ^ 63) = -(2 ^ 63) by decide]
    decide
  · decide

/-- C9 (amended): on a fresh ledger, with no Restore in the trace and
k below 2 ^ 63 (the int64 counter does not overflow), the k-th
successful Create returns an account whose ID is the decimal rendering
of k; such ids are non-empty and distinct from the ids of all earlier
successful Creates. -/
theorem C9_sequential_ids (ops : List Op) (name : String) (bal : Int)
    (k : Nat) (hbal : 0 ≤ bal) (hk : k = succCreateCount ops + 1)
    (hbound : ((k : Nat) : Int) < 2 ^ 63) :
    ((runOps NewBank ops).Create name bal).1
      = Except.ok (Account.mk (toString ((k : Nat) : Int)) name bal [])
    ∧ toString ((k : Nat) : Int) ≠ ""
    ∧ ∀ j : Nat, 0 < j → j < k →
        toString ((j : Nat) : Int) ≠ toString ((k : Nat) : Int) := by
  have hc : ((succCreateCount ops : Nat) : Int) < 2 ^ 63 := by omega
  have hnid : (runOps NewBank ops).nextID = (succCreateCount ops : Int) := by
    have h := nextID_runOps ops NewBank (by decide)
    rw [show NewBank.nextID = 0 from rfl, zero_add] at h
    exact h.trans (wrap64_eq_self (by omega) hc)
  refine ⟨?_, ?_, ?_⟩
  · rw [create_success _ name bal hbal, hnid,
      show ((succCreateCount ops : Nat) : Int) + 1 = ((k : Nat) : Int) by omega,
      wrap64_eq_self (by omega) hbound]
  · rw [toString_int_coe]
    exact natRepr_ne_empty k
  · intro j hj hjk heq
    rw [toString_int_coe, toString_int_coe] at heq
    have : j = k := natRepr_inj j k heq
    omega

/-- Witness: C9_sequential_ids applied to a trace with one successful
and one rejected Create; the next successful Create is the 2nd and
gets id 2 in decimal. -/
theorem C9_witness :
    ((runOps NewBank [Op.create "X" 5, Op.create "Y" (-1)]).Create "Z" 7).1
      = Except.ok (Account.mk (toString ((2 : Nat) : Int)) "Z" 7 []) :=
  (C9_sequential_ids [Op.create "X" 5, Op.create "Y" (-1)] "Z" 7 2
    (by decide) (by decide) (by decide)).1

/-!
Claim C10: successful mutations touch only the named accounts.
-/

/-- Account state after a successful Deposit. -/
def deposited (a : Account) (amt : Int) (now : Nat) : Account :=
  { a with
    Balance := wrap64 (a.Balance + amt),
    Logs := a.Logs ++
      [{ Time := now, Amount := amt, Direction := "in", CounterID := "",
         Note := "deposit" }] }

/-- Account state after a successful Withdraw. -/
def withdrawn (a : Account) (amt : Int) (now : Nat) : Account :=
  { a with
    Balance := wrap64 (a.Balance - amt),
    Logs := a.Logs ++
      [{ Time := now, Amount := amt, Direction := "out", CounterID := "",
         Note := "withdraw" }] }

/-- Explicit shape of a successful Deposit. -/
theorem deposit_success (b : Bank) (id : String) (amt : Int) (now : Nat)
    (a : Account) (ha : lookupA b.accts id = some a) (hpos : 0 < amt) :
    b.Deposit id amt now =
      (Except.ok (deposited a amt now),
        { b with accts := updateA b.accts id (deposited a amt now) }) := by
  unfold Bank.Deposit
  rw [if_neg (by omega)]
  simp only [ha]
  rfl

/-- Explicit shape of a successful Withdraw. -/
theorem withdraw_success (b : Bank) (id : String) (amt : Int) (now : Nat)
    (a : Account) (ha : lookupA b.accts id = some a) (hpos : 0 < amt)
    (hcov : amt ≤ a.Balance) :
    b.Withdraw id amt now =
      (Except.ok (withdrawn a amt now),
        { b with accts := updateA b.accts id (withdrawn a amt now) }) := by
  unfold Bank.Withdraw
  rw [if_neg (by omega)]
  simp only [ha]
  rw [if_neg (by omega)]
  rfl

/-- C10: a successful Deposit or Withdraw changes only the balance and
history of the named account (its id and name are kept), leaving every
other account and the counter unchanged; a successful Transfer leaves
every account other than the two named ones, and the counter,
unchanged. -/
theorem C10_frame (b : Bank) (id fromID toID : String) (amt : Int)
    (now : Nat) :
    (∀ a a', lookupA b.accts id = some a →
      (b.Deposit id amt now).1 = Except.ok a' →
      (b.Deposit id amt now).2.nextID = b.nextID
      ∧ (∀ other, other ≠ id →
          lookupA (b.Deposit id amt now).2.accts other = lookupA b.accts other)
      ∧ lookupA (b.Deposit id amt now).2.accts id = some a'
      ∧ a'.ID = a.ID ∧ a'.Name = a.Name)
  ∧ (∀ a a', lookupA b.accts id = some a →
      (b.Withdraw id amt now).1 = Except.ok a' →
      (b.Withdraw id amt now).2.nextID = b.nextID
      ∧ (∀ other, other ≠ id →
          lookupA (b.Withdraw id amt now).2.accts other = lookupA b.accts other)
      ∧ lookupA (b.Withdraw id amt now).2.accts id = some a'
      ∧ a'.ID = a.ID ∧ a'.Name = a.Name)
  ∧ ((b.Transfer fromID toID amt now).1 = none →
      (b.Transfer fromID toID amt now).2.nextID = b.nextID
      ∧ (∀ other, other ≠ fromID → other ≠ toID →
          lookupA (b.Transfer fromID toID amt now).2.accts other
            = lookupA b.accts other)) := by
  refine ⟨?_, ?_, ?_⟩
  · intro a a' ha h
    by_cases h1 : amt ≤ 0
    · simp [Bank.Deposit, h1] at h
    rw [deposit_success b id amt now a ha (by omega)] at h ⊢
    have ha' : deposited a amt now = a' := by
      simpa using h
    subst ha'
    refine ⟨rfl, ?_, ?_, rfl, rfl⟩
    · intro other hother
      exact lookupA_updateA_ne b.accts id other _ hother
    · exact lookupA_updateA_self b.accts id _
  · intro a a' ha h
    by_cases h1 : amt ≤ 0
    · simp [Bank.Withdraw, h1] at h
    by_cases h3 : a.Balance < amt
    · have : (b.Withdraw id amt now).1 = Except.error Err.insufficient := by
        simp [Bank.Withdraw, ha, h3, h1]
      rw [this] at h
      simp at h
    rw [withdraw_success b id amt now a ha (by omega) (by omega)] at h ⊢
    have ha' : withdrawn a amt now = a' := by
      simpa using h
    subst ha'
    refine ⟨rfl, ?_, ?_, rfl, rfl⟩
    · intro other hother
      exact lookupA_updateA_ne b.accts id other _ hother
    · exact lookupA_updateA_self b.accts id _
  · intro h
    obtain ⟨hpos, hne, fa, ta, hf, ht, hcov⟩ :=
      transfer_none_inv b fromID toID amt now h
    rw [transfer_success b fromID toID amt now fa ta hf ht hne hpos hcov]
    refine ⟨rfl, ?_⟩
    intro other hof hot
    rw [lookupA_updateA_ne _ toID other _ hot,
      lookupA_updateA_ne _ fromID other _ hof]

/-- Witness: C10_frame applied to Deposit(50) on account 1 of a
one-account ledger. -/
theorem C10_witness :
    ((NewBank.Create "A" 100).2.Deposit "1" 50 3).2.nextID
        = (NewBank.Create "A" 100).2.nextID
    ∧ lookupA ((NewBank.Create "A" 100).2.Deposit "1" 50 3).2.accts "1"
        = some (Account.mk "1" "A" 150
            [Log.mk 3 50 "in" "" "deposit"]) :=
  have happ :=
    ((C10_frame (NewBank.Create "A" 100).2 "1" "1" "2" 50 3).1
      (Account.mk "1" "A" 100 [])
      (Account.mk "1" "A" 150 [Log.mk 3 50 "in" "" "deposit"])
      rfl rfl)
  ⟨happ.1, happ.2.2.1⟩
